import Mathlib

/-!
Shallow embedding of the symbol-composition and gloss-resolution engine of
the `adaptive-palette` repository, together with proofs about the claims of
its specification.

Sources embedded:
* `src/client/ActionRemoveIndicatorCell.ts` (remove-indicator edit),
* `src/client/ActionPostModifierCell.ts` (append-modifier edit),
* `apps/palette-generator/paletteJsonGenerator.ts` (batch palette build),
* the gloss-search form handler (`searchGloss`).

JavaScript's partial operations are made explicit: an array access that would
yield `undefined` followed by a property access (a `TypeError` at run time) is
modelled with `Option`, a thrown `Error` with `Except`.
-/

/-- A single element of a BCI-AV token sequence: either an atom (a numeric
symbol identifier) or an operator/marker string such as "/" or ";". -/
inductive BlissToken where
  | atom (n : Int)
  | op (s : String)
deriving Repr, DecidableEq

/-- The `bciAvId` field of a symbol as it appears in the source: either a bare
number or a (mixed) array of numbers and marker strings. -/
inductive BciAvId where
  | single (n : Int)
  | seq (ts : List BlissToken)
deriving Repr, DecidableEq

/-- The normalization `typeof x === "number" ? [x] : x` used by
`ActionPostModifierCell` to view a `bciAvId` as a token sequence. -/
def BciAvId.toSeq : BciAvId → List BlissToken
  | .single n => [ BlissToken.atom n ]
  | .seq ts => ts

/-- One entry of a symbol's `modifierInfo` history, as pushed by
`ActionPostModifierCell.cellClicked`. -/
structure ModifierRecord where
  modifierId : List BlissToken
  modifierGloss : String
  isPrepended : Bool
deriving Repr, DecidableEq

/-- A resolved symbol held in the encoding area (one element of `payloads`). -/
structure ResolvedSymbol where
  id : String
  label : String
  bciAvId : BciAvId
  modifierInfo : List ModifierRecord
deriving Repr, DecidableEq

/-- The value of the `changeEncodingContents` signal: the ordered list of
resolved symbols and the caret position (an integer, `-1` when empty). -/
structure ContentSignalData where
  payloads : List ResolvedSymbol
  caretPosition : Int
deriving Repr, DecidableEq

/-- JavaScript array read `l[i]`: `some` element when `0 <= i < l.length`,
otherwise `none` (standing for `undefined`, so that a subsequent property
access is a `TypeError`). -/
def jsIndex {α : Type} (l : List α) (i : Int) : Option α :=
  if 0 ≤ i then l.get? i.toNat else none

/-- JavaScript `l.slice(s, e)` with both bounds given: negative bounds count
from the end and everything is clamped into `[0, l.length]`. -/
def jsSlice2 {α : Type} (l : List α) (s e : Int) : List α :=
  let len : Int := l.length
  let a := if s < 0 then max (len + s) 0 else min s len
  let b := if e < 0 then max (len + e) 0 else min e len
  (l.take b.toNat).drop a.toNat

/-- JavaScript `l.slice(s)` (one-argument form). -/
def jsSlice1 {α : Type} (l : List α) (s : Int) : List α :=
  jsSlice2 l s l.length

/-- Helper for `findIndicators`: indices, counted from `i`, of the tokens
satisfying `isIndicator`, in left-to-right order. -/
def findIndicatorsFrom (isIndicator : BlissToken → Bool) : Nat → List BlissToken → List Nat
  | _, [] => []
  | i, t :: ts =>
      if isIndicator t then i :: findIndicatorsFrom isIndicator (i + 1) ts
      else findIndicatorsFrom isIndicator (i + 1) ts

/-- Modelled from the spec: `findIndicators` is defined in `src/client/SvgUtils.ts`,
which is not among the given sources.  Per spec section 4.3a it "scans `tokens`
left to right and returns every index whose element matches the fixed indicator
marker set"; the fixed marker set is abstracted here as the predicate
`isIndicator`, and a bare-number `bciAvId` is viewed as its length-1 token
sequence (spec section 9). -/
def findIndicators (isIndicator : BlissToken → Bool) (tokens : List BlissToken) : List Nat :=
  findIndicatorsFrom isIndicator 0 tokens

/-- Embedding of `caretSymbolIndicatorPosition` from
`ActionRemoveIndicatorCell.ts`: the index of the first indicator in the caret
symbol's `bciAvId`, `-1` if there is none.  The result is `none` exactly when
the JavaScript code would throw (non-empty `payloads` with an out-of-range
caret, where `payloads[caretPosition].bciAvId` is a `TypeError`). -/
def caretSymbolIndicatorPosition (isIndicator : BlissToken → Bool)
    (symbols : ContentSignalData) : Option Int :=
  if symbols.payloads.length ≠ 0 then
    match jsIndex symbols.payloads symbols.caretPosition with
    | none => none
    | some caretSymbol =>
        match findIndicators isIndicator (BciAvId.toSeq caretSymbol.bciAvId) with
        | [] => some (-1)
        | i :: _ => some (i : Int)
  else some (-1)

/-- Embedding of the `disabled` computation of `ActionRemoveIndicatorCell`:
`disabled = indicatorPosition === -1`. -/
def removeIndicatorDisabled (isIndicator : BlissToken → Bool)
    (symbols : ContentSignalData) : Option Bool :=
  (caretSymbolIndicatorPosition isIndicator symbols).map (fun p => p == -1)

/-- Embedding of `cellClicked` from `ActionRemoveIndicatorCell.ts`: slice the
caret symbol's token array around the first indicator position and write the
replacement symbol back at the caret.  `none` models the run-time errors
(`undefined` symbol at the caret, or `.slice` on a bare number). -/
def removeIndicatorCellClicked (isIndicator : BlissToken → Bool) (propsId : String)
    (contents : ContentSignalData) : Option ContentSignalData :=
  match caretSymbolIndicatorPosition isIndicator contents with
  | none => none
  | some indicatorIndex =>
      match jsIndex contents.payloads contents.caretPosition with
      | none => none
      | some symbolToEdit =>
          match symbolToEdit.bciAvId with
          | .single _ => none
          | .seq ts =>
              let newBciAvId :=
                jsSlice2 ts 0 (indicatorIndex - 1) ++ jsSlice1 ts (indicatorIndex + 1)
              some { payloads := contents.payloads.set contents.caretPosition.toNat
                       { id := symbolToEdit.id ++ propsId,
                         label := symbolToEdit.label,
                         bciAvId := .seq newBciAvId,
                         modifierInfo := symbolToEdit.modifierInfo },
                     caretPosition := contents.caretPosition }

/-- Embedding of `cellClicked` from `ActionPostModifierCell.ts`: append the
modifier tokens after a "/" combine operator, prefix the modifier gloss to the
spoken label, and push one `ModifierRecord` with `isPrepended = false`. -/
def postModifierCellClicked (propsId : String) (propsBciAvId : BciAvId)
    (label : String) (contents : ContentSignalData) : Option ContentSignalData :=
  let modifierBciAvId := BciAvId.toSeq propsBciAvId
  match jsIndex contents.payloads contents.caretPosition with
  | none => none
  | some symbolToEdit =>
      let newBciAvId :=
        BciAvId.toSeq symbolToEdit.bciAvId ++ [ BlissToken.op "/" ] ++ modifierBciAvId
      let newModifierInfo :=
        symbolToEdit.modifierInfo ++
          [ { modifierId := modifierBciAvId, modifierGloss := label, isPrepended := false } ]
      some { payloads := contents.payloads.set contents.caretPosition.toNat
               { id := symbolToEdit.id ++ propsId,
                 label := label ++ " " ++ symbolToEdit.label,
                 bciAvId := .seq newBciAvId,
                 modifierInfo := newModifierInfo },
             caretPosition := contents.caretPosition }


/-! ## Palette JSON generator (`apps/palette-generator/paletteJsonGenerator.ts`) -/

/-- The `id` field of a gloss entry as it arrives from the JSON dataset:
either a JSON number or a JSON string. -/
inductive GlossId where
  | num (n : Int)
  | str (s : String)
deriving Repr, DecidableEq

/-- One entry of the Bliss gloss dataset: `{ id, description }`. -/
structure GlossEntry where
  id : GlossId
  description : String
deriving Repr, DecidableEq

/-- JavaScript strict equality `entry.id === bciAvId` where `bciAvId` is a
string: a number is never strictly equal to a string. -/
def jsStrictEqIdStr : GlossId → String → Bool
  | .num _, _ => false
  | .str s, t => s == t

/-- The string JavaScript coerces a gloss id to (`String(id)`), as consumed by
`parseInt(gloss.id)`. -/
def GlossId.toJsString : GlossId → String
  | .num n => toString n
  | .str s => s

/-- The character set of JavaScript whitespace that `trim` and `parseInt`
skip (the ASCII members plus no-break space and BOM). -/
def isJsWhitespace (c : Char) : Bool :=
  c == ' ' || c == '\t' || c == '\n' || c == '\r' ||
  c == '\x0b' || c == '\x0c' || c == '\u00A0' || c == '\uFEFF'

/-- Value of a string of decimal digits, most significant first. -/
def digitsToNat (l : List Char) : Nat :=
  l.foldl (fun a c => a * 10 + (c.toNat - 48)) 0

/-- The longest leading run of decimal digits, as a number; `none` when there
is no leading digit. -/
def parseDigitsOfPrefix (l : List Char) : Option Nat :=
  let ds := l.takeWhile Char.isDigit
  if ds.isEmpty then none else some (digitsToNat ds)

/-- JavaScript's `parseInt` builtin on decimal input: skip leading whitespace,
read an optional sign and then the longest run of decimal digits; `none`
stands for `NaN`.  (The automatic hexadecimal `0x` form of `parseInt` does not
arise in this code base's data and is not modelled.) -/
def parseIntJS (s : String) : Option Int :=
  let chars := s.data.dropWhile isJsWhitespace
  match chars with
  | '-' :: rest => (parseDigitsOfPrefix rest).map (fun n => -(n : Int))
  | '+' :: rest => (parseDigitsOfPrefix rest).map (fun n => (n : Int))
  | _ => (parseDigitsOfPrefix chars).map (fun n => (n : Int))

/-- JavaScript word characters, the `\w` class `[A-Za-z0-9_]` that the `\b`
assertion is defined from. -/
def isWordChar (c : Char) : Bool :=
  c.isAlpha || c.isDigit || c == '_'

/-- Wordness of an optional character, an edge of the string counting as
non-word. -/
def isWordCharOpt : Option Char → Bool
  | none => false
  | some c => isWordChar c

/-- A `\b` word-boundary holds between two (optional) characters exactly when
one side is a word character and the other is not. -/
def wordBoundary (a b : Option Char) : Bool :=
  isWordCharOpt a != isWordCharOpt b

/-- The characters that are metacharacters of a JavaScript regular
expression: a label containing one of these does not denote itself literally
inside `new RegExp("\\b" + label + "\\b")`. -/
def isRegexMetachar (c : Char) : Bool :=
  c = '.' || c = '*' || c = '+' || c = '?' || c = '^' || c = '$' || c = '(' ||
  c = ')' || c = '[' || c = ']' || c = '\x7b' || c = '\x7d' || c = '|' || c = '\\'

/-- One pattern character of the compiled regex `\b<label>\b` against one
description character: `.` in the label is the wildcard matching any
character except a line terminator, and every non-metacharacter matches
itself.  (Labels containing metacharacters other than `.` are outside this
model's pattern fragment.) -/
def charMatches (pc c : Char) : Bool :=
  if pc = '.' then ! (c = '\n' || c = '\r' || c = '\u2028' || c = '\u2029')
  else pc == c

/-- The label's compiled pattern characters consuming a prefix of the
remaining description. -/
def regexLiteralAccepts : List Char → List Char → Bool
  | [], _ => true
  | _ :: _, [] => false
  | pc :: ps, c :: cs => charMatches pc c && regexLiteralAccepts ps cs

/-- Embedding of `new RegExp("\\b" + label + "\\b").test(description)`: some
start position `i` of the description carries a word boundary between the
description characters around position `i`, the label's pattern consuming the
following description characters, and a word boundary between the description
characters around position `i + label.length`. -/
def testWordMatch (label desc : List Char) : Bool :=
  (List.range (desc.length + 1)).any (fun i =>
    wordBoundary ((desc.take i).getLast?) ((desc.drop i).head?) &&
    regexLiteralAccepts label (desc.drop i) &&
    wordBoundary ((desc.take (i + label.length)).getLast?)
      ((desc.drop (i + label.length)).head?))

/-- One element of the match list built by `findBciAvId`:
`{ bciAvId: parseInt(gloss.id), label: gloss.description }`.  `bciAvId` is
`none` when `parseInt` yields `NaN`. -/
structure BciMatch where
  bciAvId : Option Int
  label : String
deriving Repr, DecidableEq

/-- The match record pushed for a kept gloss entry. -/
def entryToMatch (g : GlossEntry) : BciMatch :=
  { bciAvId := parseIntJS (GlossId.toJsString g.id), label := g.description }

/-- The scan loop of `findBciAvId`: keep, in index order, every gloss entry
whose description is the label exactly or matches the word-boundary regex. -/
def scanMatches (label : String) : List GlossEntry → List BciMatch
  | [] => []
  | g :: gs =>
      if label == g.description || testWordMatch label.data g.description.data then
        entryToMatch g :: scanMatches label gs
      else scanMatches label gs

/-- The own keys of the `specialEncodings` object literal of
`paletteJsonGenerator.ts`: none, its example entries are commented out, so
the value type is never inhabited. -/
def specialEncodings : List (String × Empty) := []

/-- The property keys every plain object literal inherits from
`Object.prototype`, all visible to the JavaScript `in` operator. -/
def objectPrototypeKeys : List String :=
  [ "constructor", "hasOwnProperty", "isPrototypeOf", "propertyIsEnumerable",
    "toLocaleString", "toString", "valueOf", "__defineGetter__",
    "__defineSetter__", "__lookupGetter__", "__lookupSetter__", "__proto__" ]

/-- JavaScript `label in specialEncodings`: true for an own key of the object
literal (there are none) and for a key inherited from `Object.prototype`,
such as "toString". -/
def jsInSpecialEncodings (label : String) : Bool :=
  specialEncodings.any (fun kv => kv.1 == label) || objectPrototypeKeys.contains label

/-- The value a successful `findBciAvId` returns: the match list built by the
scan, or — through the special-encodings bypass, whose `in` check also sees
keys inherited from `Object.prototype` — the inherited prototype member
`specialEncodings[label]` itself, a host function carrying no match data,
represented here by the key that reached it. -/
inductive FindBciAvIdResult where
  | protoMember (key : String)
  | matchList (ms : List BciMatch)
deriving Repr, DecidableEq

/-- Embedding of `findBciAvId` of `paletteJsonGenerator.ts`: the
special-encoding bypass (whose `in` check fires on `Object.prototype` keys
even though the own table is empty), then the scan, then a thrown `Error`
when there is no match. -/
def findBciAvId (label : String) (blissGlosses : List GlossEntry) :
    Except String FindBciAvIdResult :=
  if jsInSpecialEncodings label then
    Except.ok (FindBciAvIdResult.protoMember label)
  else
    let matchList := scanMatches label blissGlosses
    if matchList.length == 0 then
      Except.error ( "BciAvId not found for label: " ++ label)
    else Except.ok (FindBciAvIdResult.matchList matchList)

/-- The message of the `TypeError` raised in the label branch of the batch
build when the bypass has returned an inherited prototype member: `matches`
is then a function, `matches[0]` is `undefined`, and reading `.bciAvId`
throws inside the same `try`.  The exact wording is engine-specific; this
fixed string stands for it. -/
def typeErrorReadingBciAvId : String :=
  "Cannot read properties of undefined (reading 'bciAvId')"

/-- Embedding of `findByBciAvId` of `paletteJsonGenerator.ts`: find the first
entry whose stored id is strictly equal (`===`) to the given string, throwing
when there is none. -/
def findByBciAvId (bciAvId : String) (blissGlosses : List GlossEntry) :
    Except String GlossEntry :=
  match blissGlosses.find? (fun entry => jsStrictEqIdStr entry.id bciAvId) with
  | some theEntry => Except.ok theEntry
  | none => Except.error ( "BciAvId not found for BCI AV ID: " ++ bciAvId)


/-- The label marking an empty palette cell (`BLANK_CELL_LABEL`). -/
def BLANK_CELL_LABEL : String := "BLANK"

/-- The configured palette name of the generator. -/
def palette_name : String := "No name Palette"

/-- The configured cell type of the generator. -/
def cellType : String := "ActionBmwCodeCell"

/-- The fixed sentinel token sequence meaning "not found":
`[ 15733, "/", 14133, ";", 9004, "/", 25570 ]`. -/
def notFoundEncoding : List BlissToken :=
  [ .atom 15733, .op "/", .atom 14133, .op ";", .atom 9004, .op "/", .atom 25570 ]

/-- The `bciAvId` field of an emitted palette cell: either a JavaScript number
(`none` standing for `NaN`) or a token sequence. -/
inductive CellBciAvId where
  | num (n : Option Int)
  | seq (ts : List BlissToken)
deriving Repr, DecidableEq

/-- The `options` object of an emitted palette cell. -/
structure PaletteCellOptions where
  label : String
  bciAvId : CellBciAvId
  rowStart : Int
  rowSpan : Int
  columnStart : Int
  columnSpan : Int
deriving Repr, DecidableEq

/-- An emitted palette cell `{ type, options }`. -/
structure PaletteCell where
  type : String
  options : PaletteCellOptions
deriving Repr, DecidableEq

/-- The `final_json` structure `{ name, cells }`.  The cells are kept in
emission order; the `label-uuid()` key attached to each cell is fresh,
collision-free and carries no data, so it is not modelled. -/
structure PaletteJson where
  name : String
  cells : List PaletteCell
deriving Repr, DecidableEq

/-- The value returned by `processPaletteLabels`:
`{ paletteJson, matches, errors }`.  The source field `matches` is a Lean
keyword and is called `foundMatches` here. -/
structure PaletteResult where
  paletteJson : PaletteJson
  foundMatches : List (String × List BciMatch)
  errors : List String
deriving Repr, DecidableEq

/-- The per-label body of the `forEach` loops of `processPaletteLabels` for a
non-blank label: the emitted cell, the optional ambiguity record, and the
optional caught error message.  The numeric branch first stores
`parseInt(label)` as the `bciAvId` and only then looks the label string up
with `findByBciAvId`; on a caught error the cell's label gains the
`" NOT FOUND"` suffix and the `bciAvId` becomes the sentinel sequence. -/
def processCell (blissGlosses : List GlossEntry) (label : String)
    (current_row current_column : Int) :
    PaletteCell × Option (String × List BciMatch) × Option String :=
  match parseIntJS label with
  | some n =>
      match findByBciAvId label blissGlosses with
      | .ok glossEntry =>
          (⟨ cellType,
             ⟨ glossEntry.description, .num (some n), current_row, 1, current_column, 1 ⟩⟩,
           none, none)
      | .error msg =>
          (⟨ cellType,
             ⟨ label ++ " NOT FOUND", .seq notFoundEncoding, current_row, 1, current_column, 1 ⟩⟩,
           none, some msg)
  | none =>
      match findBciAvId label blissGlosses with
      | .ok (.matchList ms) =>
          (⟨ cellType,
             ⟨ label, .num ((ms.headD ⟨ none, "" ⟩).bciAvId), current_row, 1, current_column, 1 ⟩⟩,
           some (label, ms), none)
      | .ok (.protoMember _) =>
          (⟨ cellType,
             ⟨ label ++ " NOT FOUND", .seq notFoundEncoding, current_row, 1, current_column, 1 ⟩⟩,
           none, some typeErrorReadingBciAvId)
      | .error msg =>
          (⟨ cellType,
             ⟨ label ++ " NOT FOUND", .seq notFoundEncoding, current_row, 1, current_column, 1 ⟩⟩,
           none, some msg)

/-- The inner `forEach` of `processPaletteLabels` over one row, starting at
column index `colIndex`: blank labels are skipped, the rest produce cells,
ambiguity records and error messages in order. -/
def processRowLabels (blissGlosses : List GlossEntry) (start_row start_column : Int)
    (rowIndex : Nat) :
    Nat → List String → List PaletteCell × List (String × List BciMatch) × List String
  | _, [] => ([], [], [])
  | colIndex, label :: rest =>
      let r := processRowLabels blissGlosses start_row start_column rowIndex (colIndex + 1) rest
      if label == BLANK_CELL_LABEL then r
      else
        let c := processCell blissGlosses label (start_row + (rowIndex : Int))
                   (start_column + (colIndex : Int))
        (c.1 :: r.1, c.2.1.toList ++ r.2.1, c.2.2.toList ++ r.2.2)

/-- The outer `forEach` of `processPaletteLabels` over the rows, starting at
row index `rowIndex`. -/
def processAllRows (blissGlosses : List GlossEntry) (start_row start_column : Int) :
    Nat → List (List String) → List PaletteCell × List (String × List BciMatch) × List String
  | _, [] => ([], [], [])
  | rowIndex, row :: rest =>
      let a := processRowLabels blissGlosses start_row start_column rowIndex 0 row
      let b := processAllRows blissGlosses start_row start_column (rowIndex + 1) rest
      (a.1 ++ b.1, a.2.1 ++ b.2.1, a.2.2 ++ b.2.2)

/-- Embedding of `processPaletteLabels`.  The module-level `errors` array it
shares across calls is passed in as `errors`; the first statement of the
function body, `errors.length = 0`, empties it (modelled by shadowing), so the
returned error list contains only this call's messages. -/
def processPaletteLabels (blissGlosses : List GlossEntry) (errors : List String)
    (palette_labels : List (List String)) (start_row start_column : Int) : PaletteResult :=
  let errors := ([] : List String)
  let r := processAllRows blissGlosses start_row start_column 0 palette_labels
  { paletteJson := { name := palette_name, cells := r.1 },
    foundMatches := r.2.1,
    errors := errors ++ r.2.2 }

/-- The caught error message of the per-cell resolution of a non-blank label,
independent of the cell's position. -/
def cellErrorMsg (blissGlosses : List GlossEntry) (label : String) : Option String :=
  match parseIntJS label with
  | some _ =>
      match findByBciAvId label blissGlosses with
      | .ok _ => none
      | .error msg => some msg
  | none =>
      match findBciAvId label blissGlosses with
      | .ok (.matchList _) => none
      | .ok (.protoMember _) => some typeErrorReadingBciAvId
      | .error msg => some msg

/-- Whether the per-cell resolution of a non-blank label fails (takes the
`catch` path). -/
def cellResolutionFails (blissGlosses : List GlossEntry) (label : String) : Bool :=
  (cellErrorMsg blissGlosses label).isSome

/-! ## Gloss search form handler (`searchGloss`) -/

/-- The props rendered into the search-result palette:
`matches`, `noSearchTerm` and `searchTerm`; the source field `matches` is a
Lean keyword and is called `foundMatches` here. -/
structure SearchRender (μ : Type) where
  noSearchTerm : Bool
  foundMatches : List μ
  searchTerm : String
deriving Repr, DecidableEq

/-- JavaScript `String.prototype.trim`. -/
def jsTrim (s : String) : String :=
  ⟨ ((s.data.dropWhile isJsWhitespace).reverse.dropWhile isJsWhitespace).reverse ⟩

/-- Embedding of the `searchGloss` submit handler: trim the field value; an
empty result is the distinguished no-search-term case; otherwise dispatch on
`isNaN(Number(searchText))` to the compositions-using-id query or to the label
search.  `jsNumber` stands for the JavaScript `Number` builtin (`none` for
`NaN`), and `findBciAvIdOfLabel` / `findCompositionsUsingId` stand for the two
resolvers imported from `BciAvUtils.ts`, which is not among the given sources;
the handler is parametric in all three. -/
def searchGloss (μ : Type) (jsNumber : String → Option Int)
    (findBciAvIdOfLabel : String → List μ) (findCompositionsUsingId : Int → List μ)
    (fieldValue : String) : SearchRender μ :=
  let searchText := jsTrim fieldValue
  if searchText.length == 0 then
    { noSearchTerm := true, foundMatches := [], searchTerm := searchText }
  else
    match jsNumber searchText with
    | none =>
        { noSearchTerm := false, foundMatches := findBciAvIdOfLabel searchText,
          searchTerm := searchText }
    | some numberId =>
        { noSearchTerm := false, foundMatches := findCompositionsUsingId numberId,
          searchTerm := searchText }


/-- Spec-side formulation of C4, to be compared with the source-side
`testWordMatch`: the description contains the label as a whole word when, at
some split, the label occurs literally with no word character immediately
before or after it. -/
def specWholeWord (label desc : List Char) : Bool :=
  (List.range (desc.length + 1)).any (fun i =>
    ((desc.take i).getLast?).all (fun c => ! isWordChar c) &&
    List.isPrefixOf label (desc.drop i) &&
    ((desc.drop (i + label.length)).head?).all (fun c => ! isWordChar c))

/-- The indicator-marker predicate used in concrete examples: the atom 9004
(the past-action indicator appearing in the source's sentinel encoding). -/
def sampleIndicator (t : BlissToken) : Bool :=
  t == BlissToken.atom 9004

/-- A concrete one-symbol encoding document whose symbol carries an indicator
at token index 2, used by witnesses. -/
def w6doc : ContentSignalData :=
  ⟨ [ ⟨ "c1", "CAT", .seq [ .atom 14133, .op ";", .atom 9004 ], [] ⟩ ], 0 ⟩

/-- The document produced from `w6doc` by the append-modifier edit with gloss
PLURAL and modifier atom 9011. -/
def w6post : ContentSignalData :=
  ⟨ [ ⟨ "c1pm", "PLURAL CAT",
        .seq [ .atom 14133, .op ";", .atom 9004, .op "/", .atom 9011 ],
        [ ⟨ [ .atom 9011 ], "PLURAL", false ⟩ ] ⟩ ], 0 ⟩

/-- The document produced from `w6doc` by the remove-indicator edit. -/
def w6remove : ContentSignalData :=
  ⟨ [ ⟨ "c1ri", "CAT", .seq [ .atom 14133 ], [] ⟩ ], 0 ⟩

/-! ## Supporting lemmas -/

theorem jsIndex_eq_some {α : Type} {l : List α} {i : Int} {a : α}
    (h : jsIndex l i = some a) : 0 ≤ i ∧ i.toNat < l.length := by
  unfold jsIndex at h
  split at h
  · refine ⟨ by assumption, ?_ ⟩
    rcases List.get?_eq_some.mp h with ⟨ hlt, _ ⟩
    exact hlt
  · exact absurd h (by simp)

theorem jsIndex_length_ne_zero {α : Type} {l : List α} {i : Int} {a : α}
    (h : jsIndex l i = some a) : l.length ≠ 0 := by
  have := (jsIndex_eq_some h).2
  omega

theorem take_min_length {α : Type} (l : List α) (n : Nat) :
    l.take (min n l.length) = l.take n := by
  rcases Nat.le_total n l.length with h | h
  · rw [Nat.min_eq_left h]
  · rw [Nat.min_eq_right h, List.take_length, List.take_of_length_le h]

theorem drop_min_length {α : Type} (l : List α) (n : Nat) :
    l.drop (min n l.length) = l.drop n := by
  rcases Nat.le_total n l.length with h | h
  · rw [Nat.min_eq_left h]
  · rw [Nat.min_eq_right h, List.drop_length, List.drop_eq_nil_of_le h]

theorem jsSlice2_zero_nonneg {α : Type} (l : List α) (e : Int) (he : 0 ≤ e) :
    jsSlice2 l 0 e = l.take e.toNat := by
  unfold jsSlice2
  have h0 : ¬ ((0 : Int) < 0) := by omega
  have he' : ¬ (e < 0) := by omega
  simp only [h0, he', if_false]
  have ha : (min (0 : Int) (l.length : Int)).toNat = 0 := by omega
  have hb : (min e (l.length : Int)).toNat = min e.toNat l.length := by omega
  rw [ha, hb, List.drop_zero, take_min_length]

theorem jsSlice1_nonneg {α : Type} (l : List α) (s : Int) (hs : 0 ≤ s) :
    jsSlice1 l s = l.drop s.toNat := by
  unfold jsSlice1 jsSlice2
  have hs' : ¬ (s < 0) := by omega
  have hlen : ¬ ((l.length : Int) < 0) := by omega
  simp only [hs', hlen, if_false]
  have hb : (min (l.length : Int) (l.length : Int)).toNat = l.length := by omega
  have ha : (min s (l.length : Int)).toNat = min s.toNat l.length := by omega
  rw [hb, ha, List.take_length, drop_min_length]

theorem postModifierCellClicked_eq (propsId G : String) (propsBciAvId : BciAvId)
    (doc : ContentSignalData) (c : Int) (s : ResolvedSymbol)
    (hc : doc.caretPosition = c) (hs : jsIndex doc.payloads c = some s) :
    postModifierCellClicked propsId propsBciAvId G doc =
      some { payloads := doc.payloads.set c.toNat
               { id := s.id ++ propsId,
                 label := G ++ " " ++ s.label,
                 bciAvId := .seq (BciAvId.toSeq s.bciAvId ++ [ BlissToken.op "/" ] ++
                   BciAvId.toSeq propsBciAvId),
                 modifierInfo := s.modifierInfo ++
                   [ { modifierId := BciAvId.toSeq propsBciAvId, modifierGloss := G,
                       isPrepended := false } ] },
             caretPosition := c } := by
  unfold postModifierCellClicked
  rw [hc, hs]

/-! ## Claims about the composition editor -/

/-- C9: on an encoding document with an empty payload list,
`caretSymbolIndicatorPosition` returns `-1` for every caret value (including
`-1`), without accessing any payload element — witnessed by the result being
`some` rather than the `none` that models a `TypeError` — so the
remove-indicator control is disabled and the removal edit is unreachable. -/
theorem emptyDocumentRemoveIndicatorSafe :
    ∀ (isIndicator : BlissToken → Bool) (caret : Int) (propsId : String),
      caretSymbolIndicatorPosition isIndicator ⟨ [], caret ⟩ = some (-1) ∧
      removeIndicatorDisabled isIndicator ⟨ [], caret ⟩ = some true ∧
      removeIndicatorCellClicked isIndicator propsId ⟨ [], caret ⟩ = none := by
  intro isIndicator caret propsId
  have hpos : caretSymbolIndicatorPosition isIndicator ⟨ [], caret ⟩ = some (-1) := by
    unfold caretSymbolIndicatorPosition
    simp
  refine ⟨ hpos, ?_, ?_ ⟩
  · unfold removeIndicatorDisabled
    rw [hpos]
    rfl
  · unfold removeIndicatorCellClicked
    rw [hpos]
    unfold jsIndex
    simp

/-- C2: appending a post-modifier with tokens `mt` and gloss `G` to the symbol
at the caret replaces it by a symbol whose tokens are the old tokens followed
by the "/" combine operator and `mt`, whose label is `G`, a space, then the
old label (gloss prefixed, opposite to the token append direction), and whose
`modifierInfo` gains exactly one record carrying `mt`, `G`, and
`isPrepended = false`. -/
theorem appendModifierShape (propsId G : String) (propsBciAvId : BciAvId)
    (doc : ContentSignalData) (c : Int) (s : ResolvedSymbol)
    (hc : doc.caretPosition = c) (hs : jsIndex doc.payloads c = some s) :
    postModifierCellClicked propsId propsBciAvId G doc =
      some { payloads := doc.payloads.set c.toNat
               { id := s.id ++ propsId,
                 label := G ++ " " ++ s.label,
                 bciAvId := .seq (BciAvId.toSeq s.bciAvId ++ [ BlissToken.op "/" ] ++
                   BciAvId.toSeq propsBciAvId),
                 modifierInfo := s.modifierInfo ++
                   [ { modifierId := BciAvId.toSeq propsBciAvId, modifierGloss := G,
                       isPrepended := false } ] },
             caretPosition := c } :=
  postModifierCellClicked_eq propsId G propsBciAvId doc c s hc hs

/-- Witness for C2: appending the PLURAL modifier to a symbol labelled CAT
yields the label "PLURAL CAT", the tokens extended by "/" and the modifier
tokens, and one more modifier record with `isPrepended = false`. -/
theorem appendModifierShapeWitness :
    jsIndex ([ ⟨ "cell-1", "CAT", .seq [ .atom 14133 ], [] ⟩ ] : List ResolvedSymbol) 0 =
      some ⟨ "cell-1", "CAT", .seq [ .atom 14133 ], [] ⟩ ∧
    postModifierCellClicked "plural-cell" (.seq [ .atom 9011 ]) "PLURAL"
        ⟨ [ ⟨ "cell-1", "CAT", .seq [ .atom 14133 ], [] ⟩ ], 0 ⟩ =
      some { payloads := ([ ⟨ "cell-1", "CAT", .seq [ .atom 14133 ], [] ⟩ ] :
                 List ResolvedSymbol).set 0
               { id := "cell-1" ++ "plural-cell",
                 label := "PLURAL" ++ " " ++ "CAT",
                 bciAvId := .seq (BciAvId.toSeq (.seq [ .atom 14133 ]) ++
                   [ BlissToken.op "/" ] ++ BciAvId.toSeq (.seq [ .atom 9011 ])),
                 modifierInfo := [] ++
                   [ { modifierId := BciAvId.toSeq (.seq [ .atom 9011 ]),
                       modifierGloss := "PLURAL", isPrepended := false } ] },
             caretPosition := 0 } :=
  ⟨ rfl,
    appendModifierShape "plural-cell" "PLURAL" (.seq [ .atom 9011 ])
      ⟨ [ ⟨ "cell-1", "CAT", .seq [ .atom 14133 ], [] ⟩ ], 0 ⟩ 0
      ⟨ "cell-1", "CAT", .seq [ .atom 14133 ], [] ⟩ rfl rfl ⟩

/-- C1: when the caret symbol's token sequence has its first indicator at
index `i` with `i >= 1`, the remove-indicator click replaces the symbol's
tokens by `tokens[0 .. i-2] ++ tokens[i+1 ..]` — it drops exactly the
indicator element and the single element immediately preceding it, leaving
every other element (and the label and modifier history) unchanged. -/
theorem removeIndicatorDropsBoundingPair (isIndicator : BlissToken → Bool)
    (propsId : String) (doc : ContentSignalData) (c : Int) (s : ResolvedSymbol)
    (ts : List BlissToken) (i : Nat) (rest : List Nat)
    (hc : doc.caretPosition = c) (hs : jsIndex doc.payloads c = some s)
    (hts : s.bciAvId = .seq ts)
    (hind : findIndicators isIndicator ts = i :: rest) (hi : 1 ≤ i) :
    removeIndicatorCellClicked isIndicator propsId doc =
      some { payloads := doc.payloads.set c.toNat
               { id := s.id ++ propsId,
                 label := s.label,
                 bciAvId := .seq (ts.take (i - 1) ++ ts.drop (i + 1)),
                 modifierInfo := s.modifierInfo },
             caretPosition := c } := by
  have hlen : doc.payloads.length ≠ 0 := jsIndex_length_ne_zero hs
  have hpos : caretSymbolIndicatorPosition isIndicator doc = some (i : Int) := by
    unfold caretSymbolIndicatorPosition
    rw [if_pos hlen, hc, hs]
    simp only [hts, BciAvId.toSeq, hind]
  have ht1 : ((i : Int) - 1).toNat = i - 1 := by omega
  have ht2 : ((i : Int) + 1).toNat = i + 1 := by omega
  have h1 : jsSlice2 ts 0 ((i : Int) - 1) = ts.take (i - 1) := by
    rw [jsSlice2_zero_nonneg ts ((i : Int) - 1) (by omega), ht1]
  have h2 : jsSlice1 ts ((i : Int) + 1) = ts.drop (i + 1) := by
    rw [jsSlice1_nonneg ts ((i : Int) + 1) (by omega), ht2]
  unfold removeIndicatorCellClicked
  rw [hpos, hc, hs]
  simp only [hts, h1, h2]

/-- Witness for C1: a symbol with tokens `[14133, ";", 9004]` whose first
indicator (the atom 9004) sits at index 2 loses exactly the pair at indices 1
and 2, leaving `[14133]`. -/
theorem removeIndicatorDropsBoundingPairWitness :
    jsIndex w6doc.payloads 0 = some ⟨ "c1", "CAT", .seq [ .atom 14133, .op ";", .atom 9004 ], [] ⟩ ∧
    findIndicators sampleIndicator [ .atom 14133, .op ";", .atom 9004 ] = [ 2 ] ∧
    removeIndicatorCellClicked sampleIndicator "ri" w6doc =
      some { payloads := w6doc.payloads.set 0
               { id := "c1" ++ "ri",
                 label := "CAT",
                 bciAvId := .seq (([ .atom 14133, .op ";", .atom 9004 ] : List BlissToken).take 1 ++
                   ([ .atom 14133, .op ";", .atom 9004 ] : List BlissToken).drop 3),
                 modifierInfo := [] },
             caretPosition := 0 } :=
  ⟨ rfl, rfl,
    removeIndicatorDropsBoundingPair sampleIndicator "ri" w6doc 0
      ⟨ "c1", "CAT", .seq [ .atom 14133, .op ";", .atom 9004 ], [] ⟩
      [ .atom 14133, .op ";", .atom 9004 ] 2 [] rfl rfl rfl rfl (by omega) ⟩

/-- C6: a completed append-modifier or remove-indicator edit on a document
with caret `c` (`0 <= c < payloads.length`) keeps the caret at `c`, writes the
replacement symbol into slot `c`, and leaves every payload at an index other
than `c` unchanged. -/
theorem editPreservesCaretAndFrame (isIndicator : BlissToken → Bool)
    (pid₁ pid₂ G : String) (props : BciAvId) (doc doc₁ doc₂ : ContentSignalData)
    (c : Int) (hc : doc.caretPosition = c) (hge : 0 ≤ c)
    (hlt : c < (doc.payloads.length : Int)) :
    (postModifierCellClicked pid₁ props G doc = some doc₁ →
      doc₁.caretPosition = c ∧
      (∃ r, doc₁.payloads = doc.payloads.set c.toNat r) ∧
      ∀ j : Nat, j ≠ c.toNat → doc₁.payloads[j]? = doc.payloads[j]?) ∧
    (removeIndicatorCellClicked isIndicator pid₂ doc = some doc₂ →
      doc₂.caretPosition = c ∧
      (∃ r, doc₂.payloads = doc.payloads.set c.toNat r) ∧
      ∀ j : Nat, j ≠ c.toNat → doc₂.payloads[j]? = doc.payloads[j]?) := by
  have hsome : ∃ s, jsIndex doc.payloads c = some s := by
    unfold jsIndex
    rw [if_pos hge]
    have hlt' : c.toNat < doc.payloads.length := by omega
    exact ⟨ _, List.get?_eq_get hlt' ⟩
  obtain ⟨ s, hs ⟩ := hsome
  constructor
  · intro h
    rw [postModifierCellClicked_eq pid₁ G props doc c s hc hs] at h
    obtain rfl : doc₁ = _ := (Option.some.inj h).symm
    refine ⟨ rfl, ⟨ _, rfl ⟩, ?_ ⟩
    intro j hj
    exact List.getElem?_set_ne (by omega)
  · intro h
    unfold removeIndicatorCellClicked at h
    rw [hc] at h
    split at h
    · simp at h
    · split at h
      · simp at h
      · split at h
        · simp at h
        · obtain rfl := (Option.some.inj h).symm
          refine ⟨ rfl, ⟨ _, rfl ⟩, ?_ ⟩
          intro j hj
          exact List.getElem?_set_ne (by omega)

/-- Witness for C6: both edits on a concrete one-symbol document keep the
caret at 0, write the replacement into slot 0, and leave other slots alone. -/
theorem editPreservesCaretAndFrameWitness :
    (postModifierCellClicked "pm" (.seq [ .atom 9011 ]) "PLURAL" w6doc = some w6post →
      w6post.caretPosition = 0 ∧
      (∃ r, w6post.payloads = w6doc.payloads.set (0 : Int).toNat r) ∧
      ∀ j : Nat, j ≠ (0 : Int).toNat → w6post.payloads[j]? = w6doc.payloads[j]?) ∧
    (removeIndicatorCellClicked sampleIndicator "ri" w6doc = some w6remove →
      w6remove.caretPosition = 0 ∧
      (∃ r, w6remove.payloads = w6doc.payloads.set (0 : Int).toNat r) ∧
      ∀ j : Nat, j ≠ (0 : Int).toNat → w6remove.payloads[j]? = w6doc.payloads[j]?) :=
  editPreservesCaretAndFrame sampleIndicator "pm" "ri" "PLURAL" (.seq [ .atom 9011 ])
    w6doc w6post w6remove 0 rfl (by omega) (by decide)

/-- C8: parsing a search term is a three-way split — empty after trimming
yields the distinguished no-search-term result with an empty match set; a
non-empty term that `Number` accepts is resolved by the compositions-using-id
query; every other non-empty term is resolved as a label search — and the
`noSearchTerm` flag is true exactly in the first case, distinguishing it from
a label search with zero matches. -/
theorem searchTermTrichotomy (μ : Type) (jsNumber : String → Option Int)
    (findBciAvIdOfLabel : String → List μ) (findCompositionsUsingId : Int → List μ)
    (fieldValue : String) :
    searchGloss μ jsNumber findBciAvIdOfLabel findCompositionsUsingId fieldValue =
      (if (jsTrim fieldValue).length = 0 then
        { noSearchTerm := true, foundMatches := [], searchTerm := jsTrim fieldValue }
      else
        match jsNumber (jsTrim fieldValue) with
        | some numberId =>
            { noSearchTerm := false, foundMatches := findCompositionsUsingId numberId,
              searchTerm := jsTrim fieldValue }
        | none =>
            { noSearchTerm := false, foundMatches := findBciAvIdOfLabel (jsTrim fieldValue),
              searchTerm := jsTrim fieldValue }) ∧
    ((searchGloss μ jsNumber findBciAvIdOfLabel findCompositionsUsingId
        fieldValue).noSearchTerm = true ↔ (jsTrim fieldValue).length = 0) := by
  by_cases hz : (jsTrim fieldValue).length = 0
  · simp [searchGloss, hz]
  · cases hn : jsNumber (jsTrim fieldValue) with
    | none => simp [searchGloss, hz, hn]
    | some numberId => simp [searchGloss, hz, hn]

/-! ## Supporting lemmas for the batch palette build -/

theorem processCell_err (g : List GlossEntry) (label : String) (r c : Int) :
    (processCell g label r c).2.2 = cellErrorMsg g label := by
  unfold processCell cellErrorMsg
  cases parseIntJS label with
  | none =>
      cases findBciAvId label g with
      | ok res => cases res <;> rfl
      | error msg => rfl
  | some n => cases findByBciAvId label g <;> rfl

theorem processCell_fail (g : List GlossEntry) (label : String) (r c : Int)
    (h : cellResolutionFails g label = true) :
    (processCell g label r c).1 =
      ⟨ cellType, ⟨ label ++ " NOT FOUND", .seq notFoundEncoding, r, 1, c, 1 ⟩ ⟩ := by
  unfold cellResolutionFails cellErrorMsg at h
  unfold processCell
  cases hp : parseIntJS label with
  | none =>
      rw [hp] at h
      cases hf : findBciAvId label g with
      | ok res =>
          cases res with
          | matchList ms => rw [hf] at h; simp at h
          | protoMember key => rfl
      | error msg => rfl
  | some n =>
      rw [hp] at h
      cases hf : findByBciAvId label g with
      | ok e => rw [hf] at h; simp at h
      | error msg => rfl

theorem processRowLabels_errors (g : List GlossEntry) (sr sc : Int) (ri : Nat) :
    ∀ (ci : Nat) (row : List String),
      (processRowLabels g sr sc ri ci row).2.2 =
        (row.filter (fun l => ! (l == BLANK_CELL_LABEL))).filterMap (cellErrorMsg g) := by
  intro ci row
  induction row generalizing ci with
  | nil => rfl
  | cons x rest ih =>
      unfold processRowLabels
      by_cases hx : (x == BLANK_CELL_LABEL) = true
      · simp only [hx, if_true, List.filter_cons, Bool.not_true, Bool.false_eq_true, if_false]
        exact ih (ci + 1)
      · have hx' : (x == BLANK_CELL_LABEL) = false := by
          simpa using hx
        simp only [hx', Bool.false_eq_true, if_false, List.filter_cons, Bool.not_false,
          if_true, List.filterMap_cons, processCell_err]
        cases cellErrorMsg g x with
        | none => simpa using ih (ci + 1)
        | some m => simpa using ih (ci + 1)

theorem processAllRows_errors (g : List GlossEntry) (sr sc : Int) :
    ∀ (ri : Nat) (palette_labels : List (List String)),
      (processAllRows g sr sc ri palette_labels).2.2 =
        (palette_labels.flatten.filter (fun l => ! (l == BLANK_CELL_LABEL))).filterMap
          (cellErrorMsg g) := by
  intro ri palette_labels
  induction palette_labels generalizing ri with
  | nil => rfl
  | cons row rest ih =>
      unfold processAllRows
      simp only [List.flatten_cons, List.filter_append, List.filterMap_append]
      rw [processRowLabels_errors, ih (ri + 1)]

theorem length_filterMap_isSome {α β : Type} (f : α → Option β) (l : List α) :
    (l.filterMap f).length = (l.filter (fun x => (f x).isSome)).length := by
  induction l with
  | nil => rfl
  | cons x rest ih =>
      rw [List.filterMap_cons, List.filter_cons]
      cases hx : f x with
      | none => simpa [hx] using ih
      | some b => simpa [hx] using ih

/-- C10: every call of the batch build first empties the shared error
accumulator, so the returned error list is independent of what previous calls
left there and its length is exactly the number of failing non-blank cells of
this call's layout. -/
theorem errorsResetPerCall (g : List GlossEntry) (prevErrors : List String)
    (palette_labels : List (List String)) (start_row start_column : Int) :
    processPaletteLabels g prevErrors palette_labels start_row start_column =
      processPaletteLabels g [] palette_labels start_row start_column ∧
    (processPaletteLabels g prevErrors palette_labels start_row start_column).errors.length =
      ((palette_labels.flatten.filter (fun l => ! (l == BLANK_CELL_LABEL))).filter
        (cellResolutionFails g)).length := by
  refine ⟨ rfl, ?_ ⟩
  show ([] ++ (processAllRows g start_row start_column 0 palette_labels).2.2).length = _
  rw [List.nil_append, processAllRows_errors, length_filterMap_isSome]
  rfl

theorem processRowLabels_mem (g : List GlossEntry) (sr sc : Int) (ri : Nat) :
    ∀ (row : List String) (ci j : Nat) (label : String),
      row.get? j = some label → (label == BLANK_CELL_LABEL) = false →
      (processCell g label (sr + (ri : Int)) (sc + ((ci + j : Nat) : Int))).1 ∈
        (processRowLabels g sr sc ri ci row).1 := by
  intro row
  induction row with
  | nil =>
      intro ci j label h _
      simp at h
  | cons x rest ih =>
      intro ci j label h hb
      cases j with
      | zero =>
          obtain rfl := Option.some.inj h
          unfold processRowLabels
          simp only [hb, Bool.false_eq_true, if_false]
          exact List.mem_cons_self _ _
      | succ j' =>
          have h' : rest.get? j' = some label := h
          have hmem := ih (ci + 1) j' label h' hb
          rw [show ci + (j' + 1) = ci + 1 + j' from by omega]
          unfold processRowLabels
          by_cases hx : (x == BLANK_CELL_LABEL) = true
          · simp only [hx, if_true]
            exact hmem
          · have hx' : (x == BLANK_CELL_LABEL) = false := by
              simpa using hx
            simp only [hx', Bool.false_eq_true, if_false]
            exact List.mem_cons_of_mem _ hmem

theorem processAllRows_mem (g : List GlossEntry) (sr sc : Int) :
    ∀ (palette_labels : List (List String)) (ri i : Nat) (row : List String)
      (x : PaletteCell),
      palette_labels.get? i = some row →
      x ∈ (processRowLabels g sr sc (ri + i) 0 row).1 →
      x ∈ (processAllRows g sr sc ri palette_labels).1 := by
  intro palette_labels
  induction palette_labels with
  | nil =>
      intro ri i row x h _
      simp at h
  | cons r0 rest ih =>
      intro ri i row x h hx
      cases i with
      | zero =>
          obtain rfl := Option.some.inj h
          unfold processAllRows
          exact List.mem_append_left _ hx
      | succ i' =>
          unfold processAllRows
          apply List.mem_append_right
          apply ih (ri + 1) i' row x h
          rw [show ri + 1 + i' = ri + (i' + 1) from by omega]
          exact hx

/-- C5: the batch build is total, and for every failing non-blank label at row
`i`, column `j` of the layout, it emits a cell whose label is the original
label suffixed with " NOT FOUND" and whose `bciAvId` is the fixed sentinel
sequence `[15733, "/", 14133, ";", 9004, "/", 25570]`, placed at
`start_row + i`, `start_column + j`, while the caught message lands in the
returned error list; processing of the other cells continues. -/
theorem batchFailureEmitsPlaceholders (g : List GlossEntry)
    (palette_labels : List (List String)) (sr sc : Int) (i j : Nat)
    (row : List String) (label : String)
    (hrow : palette_labels.get? i = some row) (hlab : row.get? j = some label)
    (hnb : (label == BLANK_CELL_LABEL) = false)
    (hfail : cellResolutionFails g label = true) :
    (∃ cell ∈ (processPaletteLabels g [] palette_labels sr sc).paletteJson.cells,
      cell.options.label = label ++ " NOT FOUND" ∧
      cell.options.bciAvId = CellBciAvId.seq notFoundEncoding ∧
      cell.options.rowStart = sr + (i : Int) ∧ cell.options.rowSpan = 1 ∧
      cell.options.columnStart = sc + (j : Int) ∧ cell.options.columnSpan = 1) ∧
    ∀ msg, cellErrorMsg g label = some msg →
      msg ∈ (processPaletteLabels g [] palette_labels sr sc).errors := by
  constructor
  · refine ⟨ (processCell g label (sr + (i : Int)) (sc + (j : Int))).1, ?_, ?_ ⟩
    · show _ ∈ (processAllRows g sr sc 0 palette_labels).1
      apply processAllRows_mem g sr sc palette_labels 0 i row _ hrow
      have hmem := processRowLabels_mem g sr sc i row 0 j label hlab hnb
      rw [Nat.zero_add] at hmem
      rw [Nat.zero_add]
      exact hmem
    · rw [processCell_fail g label _ _ hfail]
      exact ⟨ rfl, rfl, rfl, rfl, rfl, rfl ⟩
  · intro msg hmsg
    show msg ∈ [] ++ (processAllRows g sr sc 0 palette_labels).2.2
    rw [List.nil_append, processAllRows_errors]
    apply List.mem_filterMap.mpr
    refine ⟨ label, ?_, hmsg ⟩
    apply List.mem_filter.mpr
    refine ⟨ ?_, by simp [hnb] ⟩
    exact List.mem_flatten.mpr ⟨ row, List.get?_mem hrow, List.get?_mem hlab ⟩

/-- Witness for C5: the spec's batch scenario — layout
`[["BLANK","cat"],["7","dog"]]` over a gloss index holding only `cat` — emits
a sentinel NOT FOUND cell for the unresolved label "dog" at row 3, column 2,
and records its message. -/
theorem batchFailureEmitsPlaceholdersWitness :
    cellResolutionFails [ ⟨ .num 5, "cat" ⟩ ] "dog" = true ∧
    ((∃ cell ∈ (processPaletteLabels [ ⟨ .num 5, "cat" ⟩ ] []
          [[ "BLANK", "cat" ], [ "7", "dog" ]] 2 1).paletteJson.cells,
        cell.options.label = "dog" ++ " NOT FOUND" ∧
        cell.options.bciAvId = CellBciAvId.seq notFoundEncoding ∧
        cell.options.rowStart = 2 + ((1 : Nat) : Int) ∧ cell.options.rowSpan = 1 ∧
        cell.options.columnStart = 1 + ((1 : Nat) : Int) ∧ cell.options.columnSpan = 1) ∧
      ∀ msg, cellErrorMsg [ ⟨ .num 5, "cat" ⟩ ] "dog" = some msg →
        msg ∈ (processPaletteLabels [ ⟨ .num 5, "cat" ⟩ ] []
          [[ "BLANK", "cat" ], [ "7", "dog" ]] 2 1).errors) :=
  ⟨ by decide,
    batchFailureEmitsPlaceholders [ ⟨ .num 5, "cat" ⟩ ]
      [[ "BLANK", "cat" ], [ "7", "dog" ]] 2 1 1 1 [ "7", "dog" ] "dog"
      rfl rfl (by decide) (by decide) ⟩

/-! ## Claims about gloss lookup -/

theorem jsStrictEqIdStr_iff (gid : GlossId) (label : String) :
    jsStrictEqIdStr gid label = true ↔ gid = GlossId.str label := by
  cases gid with
  | num n => simp [jsStrictEqIdStr]
  | str s => simp [jsStrictEqIdStr]

/-- C3 counterexample: the label "123" parses to the finite integer 123 and
the gloss index holds an entry for 123 whose id is stored as a JSON number,
yet the lookup takes the per-cell NotFoundError path and emits the NOT FOUND
placeholder — the strict `===` between the stored id and the label string
never accepts a number-typed id. -/
theorem numericIdNumberStoredCounterexample :
    parseIntJS "123" = some 123 ∧
    (⟨ GlossId.num 123, "water" ⟩ : GlossEntry) ∈
      ([ ⟨ GlossId.num 123, "water" ⟩ ] : List GlossEntry) ∧
    cellResolutionFails [ ⟨ GlossId.num 123, "water" ⟩ ] "123" = true ∧
    (processCell [ ⟨ GlossId.num 123, "water" ⟩ ] "123" 2 1).1.options.label =
      "123 NOT FOUND" := by
  refine ⟨ by decide, by simp, by decide, by decide ⟩

/-- C3 as amended: for a batch cell label parsing to the finite integer `n`,
the lookup succeeds exactly by strict string equality between the stored id
and the whole label: if some entry's id is the string equal to the label, the
emitted cell carries `bciAvId = n` and that entry's description as its display
label; if no entry's stored id is that exact string — in particular whenever
the matching entry's id is stored as a number — the per-cell NotFoundError
path is taken. -/
theorem numericIdStringEqualityAmended (g : List GlossEntry) (label : String)
    (n : Int) (r c : Int) (hp : parseIntJS label = some n) :
    ((∃ e ∈ g, e.id = GlossId.str label) →
      ∃ e ∈ g, e.id = GlossId.str label ∧
        (processCell g label r c).1 =
          ⟨ cellType, ⟨ e.description, .num (some n), r, 1, c, 1 ⟩ ⟩ ∧
        cellErrorMsg g label = none) ∧
    ((∀ e ∈ g, e.id ≠ GlossId.str label) →
      (processCell g label r c).1 =
        ⟨ cellType, ⟨ label ++ " NOT FOUND", .seq notFoundEncoding, r, 1, c, 1 ⟩ ⟩ ∧
      cellResolutionFails g label = true) := by
  constructor
  · rintro ⟨ e, he, hid ⟩
    have hex : (g.find? (fun entry => jsStrictEqIdStr entry.id label)).isSome := by
      rw [List.find?_isSome]
      exact ⟨ e, he, (jsStrictEqIdStr_iff e.id label).mpr hid ⟩
    obtain ⟨ e', he' ⟩ := Option.isSome_iff_exists.mp hex
    have hmem := List.mem_of_find?_eq_some he'
    have hpe' := List.find?_some he'
    have hid' := (jsStrictEqIdStr_iff e'.id label).mp (by simpa using hpe')
    have hfind : findByBciAvId label g = Except.ok e' := by
      unfold findByBciAvId
      rw [he']
    refine ⟨ e', hmem, hid', ?_, ?_ ⟩
    · unfold processCell
      rw [hp, hfind]
    · unfold cellErrorMsg
      rw [hp, hfind]
  · intro hall
    have hnone : g.find? (fun entry => jsStrictEqIdStr entry.id label) = none := by
      rw [List.find?_eq_none]
      intro x hx hpx
      exact hall x hx ((jsStrictEqIdStr_iff x.id label).mp hpx)
    have hfind : findByBciAvId label g =
        Except.error ( "BciAvId not found for BCI AV ID: " ++ label) := by
      unfold findByBciAvId
      rw [hnone]
    constructor
    · unfold processCell
      rw [hp, hfind]
    · unfold cellResolutionFails cellErrorMsg
      rw [hp, hfind]
      rfl

/-- Witness for the amended C3: with the id stored as the string "123" the
cell resolves to the entry's description and `bciAvId` 123, and with no
string-equal id the NOT FOUND path is taken. -/
theorem numericIdStringEqualityAmendedWitness :
    parseIntJS "123" = some 123 ∧
    (((∃ e ∈ ([ ⟨ GlossId.str "123", "water" ⟩ ] : List GlossEntry),
          e.id = GlossId.str "123") →
        ∃ e ∈ ([ ⟨ GlossId.str "123", "water" ⟩ ] : List GlossEntry),
          e.id = GlossId.str "123" ∧
          (processCell [ ⟨ GlossId.str "123", "water" ⟩ ] "123" 2 1).1 =
            ⟨ cellType, ⟨ e.description, .num (some 123), 2, 1, 1, 1 ⟩ ⟩ ∧
          cellErrorMsg [ ⟨ GlossId.str "123", "water" ⟩ ] "123" = none) ∧
      ((∀ e ∈ ([ ⟨ GlossId.str "123", "water" ⟩ ] : List GlossEntry),
          e.id ≠ GlossId.str "123") →
        (processCell [ ⟨ GlossId.str "123", "water" ⟩ ] "123" 2 1).1 =
          ⟨ cellType, ⟨ "123" ++ " NOT FOUND", .seq notFoundEncoding, 2, 1, 1, 1 ⟩ ⟩ ∧
        cellResolutionFails [ ⟨ GlossId.str "123", "water" ⟩ ] "123" = true)) :=
  ⟨ by decide,
    numericIdStringEqualityAmended [ ⟨ GlossId.str "123", "water" ⟩ ] "123" 123 2 1
      (by decide) ⟩

theorem list_any_congr {α : Type} (l : List α) (f g : α → Bool)
    (h : ∀ x ∈ l, f x = g x) : l.any f = l.any g := by
  induction l with
  | nil => rfl
  | cons x rest ih =>
      simp only [List.any_cons]
      rw [h x (List.mem_cons_self x rest), ih (fun y hy => h y (List.mem_cons_of_mem x hy))]

theorem wordBoundary_eq_all_left {c : Char} (hc : isWordChar c = true) (o : Option Char) :
    wordBoundary o (some c) = o.all (fun x => ! isWordChar x) := by
  cases o with
  | none => simp [wordBoundary, isWordCharOpt, hc]
  | some d =>
      cases hd : isWordChar d <;>
        simp [wordBoundary, isWordCharOpt, hc, hd]

theorem wordBoundary_eq_all_right {c : Char} (hc : isWordChar c = true) (o : Option Char) :
    wordBoundary (some c) o = o.all (fun x => ! isWordChar x) := by
  cases o with
  | none => simp [wordBoundary, isWordCharOpt, hc]
  | some d =>
      cases hd : isWordChar d <;>
        simp [wordBoundary, isWordCharOpt, hc, hd]

theorem regexLiteralAccepts_eq_isPrefixOf (label : List Char)
    (hm : ∀ ch ∈ label, isRegexMetachar ch = false) :
    ∀ l, regexLiteralAccepts label l = List.isPrefixOf label l := by
  induction label with
  | nil =>
      intro l
      cases l <;> rfl
  | cons pc ps ih =>
      intro l
      cases l with
      | nil => rfl
      | cons c cs =>
          have hpc : isRegexMetachar pc = false := hm pc (List.mem_cons_self pc ps)
          have hdot : ¬ (pc = '.') := by
            intro hd
            rw [hd] at hpc
            exact absurd hpc (by decide)
          show (charMatches pc c && regexLiteralAccepts ps cs) =
            ((pc == c) && List.isPrefixOf ps cs)
          unfold charMatches
          rw [if_neg hdot, ih (fun ch hch => hm ch (List.mem_cons_of_mem pc hch)) cs]

theorem testWordMatch_eq_specWholeWord (label : List Char) (hne : label ≠ [])
    (hm : ∀ ch ∈ label, isRegexMetachar ch = false)
    (hfirst : (label.head?).all isWordChar = true)
    (hlast : (label.getLast?).all isWordChar = true) (desc : List Char) :
    testWordMatch label desc = specWholeWord label desc := by
  obtain ⟨ c0, label', rfl ⟩ : ∃ c0 l', label = c0 :: l' := by
    cases label with
    | nil => exact absurd rfl hne
    | cons a l => exact ⟨ a, l, rfl ⟩
  have hc0 : isWordChar c0 = true := by
    simpa using hfirst
  have hne' : (c0 :: label') ≠ [] := by simp
  have hlastS : (c0 :: label').getLast? = some ((c0 :: label').getLast hne') :=
    List.getLast?_eq_getLast _ hne'
  have hclw : isWordChar ((c0 :: label').getLast hne') = true := by
    rw [hlastS] at hlast
    simpa using hlast
  unfold testWordMatch specWholeWord
  apply list_any_congr
  intro i hi
  have hi' : i ≤ desc.length := by
    have := List.mem_range.mp hi
    omega
  rw [regexLiteralAccepts_eq_isPrefixOf (c0 :: label') hm]
  cases hp : List.isPrefixOf (c0 :: label') (desc.drop i) with
  | false => simp
  | true =>
      obtain ⟨ t, ht ⟩ := List.isPrefixOf_iff_prefix.mp hp
      have hstart : (desc.drop i).head? = some c0 := by
        rw [← ht]
        rfl
      have hlen0 : (desc.take i).length = i := by
        rw [List.length_take, Nat.min_eq_left hi']
      have h1 : (desc.take i).length ≤ i + (c0 :: label').length := by
        rw [hlen0]
        omega
      have htake : desc.take (i + (c0 :: label').length) =
          desc.take i ++ (c0 :: label') := by
        conv_lhs => rw [← List.take_append_drop i desc, ← ht]
        rw [List.take_append_eq_append_take, List.take_of_length_le h1, hlen0,
          Nat.add_sub_cancel_left, List.take_left]
      have hendL : (desc.take (i + (c0 :: label').length)).getLast? =
          some ((c0 :: label').getLast hne') := by
        rw [htake, List.getLast?_append_of_ne_nil _ hne', hlastS]
      rw [hstart, hendL, wordBoundary_eq_all_left hc0, wordBoundary_eq_all_right hclw]

/-- C4 counterexample: the claim fails once the label leaves the literal
whole-word fragment.  For the label "c.t" the compiled pattern `\bc.t\b`
treats "." as the wildcard and matches the description "cot", and for the
label "-x" (no metacharacter, but a non-word first character) the pattern
`\b-x\b` matches "a-x" — in both cases the scan keeps an entry whose
description neither equals the label nor contains it as a whole word. -/
theorem wholeWordMetacharCounterexample :
    jsInSpecialEncodings "c.t" = false ∧
    scanMatches "c.t" [ ⟨ .str "9", "cot" ⟩ ] = [ ⟨ some 9, "cot" ⟩ ] ∧
    ( "cot" == "c.t") = false ∧
    specWholeWord ( "c.t").data ( "cot").data = false ∧
    jsInSpecialEncodings "-x" = false ∧
    scanMatches "-x" [ ⟨ .str "4", "a-x" ⟩ ] = [ ⟨ some 4, "a-x" ⟩ ] ∧
    ( "a-x" == "-x") = false ∧
    specWholeWord ( "-x").data ( "a-x").data = false := by
  refine ⟨ by decide, by decide, by decide, by decide, by decide, by decide,
    by decide, by decide ⟩

/-- C4 as amended: for every non-empty label free of regex metacharacters,
whose first and last characters are word characters, and for which the `in`
check against the special-encodings object is false, the scan of
`findBciAvId` keeps, in index load order, exactly the entries whose
description equals the label or contains it as a whole word; in particular
"cat" does not match the description "category" but matches "the cat sat". -/
theorem wholeWordScanCharacterization (g : List GlossEntry) (label : String)
    (hne : label.data ≠ [])
    (hm : ∀ ch ∈ label.data, isRegexMetachar ch = false)
    (hfirst : (label.data.head?).all isWordChar = true)
    (hlast : (label.data.getLast?).all isWordChar = true)
    (hsp : jsInSpecialEncodings label = false) :
    scanMatches label g =
      (g.filter (fun e => label == e.description ||
        specWholeWord label.data e.description.data)).map entryToMatch ∧
    specWholeWord ( "cat").data ( "category").data = false ∧
    specWholeWord ( "cat").data ( "the cat sat").data = true := by
  refine ⟨ ?_, by decide, by decide ⟩
  induction g with
  | nil => rfl
  | cons e rest ih =>
      unfold scanMatches
      rw [List.filter_cons,
        testWordMatch_eq_specWholeWord label.data hne hm hfirst hlast e.description.data]
      by_cases h : (label == e.description ||
          specWholeWord label.data e.description.data) = true
      · simp [h, ih]
      · have h' : (label == e.description ||
            specWholeWord label.data e.description.data) = false := by
          simpa using h
        simp [h', ih]

/-- Witness for the amended C4: over a three-entry index the scan for "cat"
keeps exactly the "the cat sat" and "cat" entries, in load order. -/
theorem wholeWordScanCharacterizationWitness :
    ( "cat").data ≠ [] ∧
    (∀ ch ∈ ( "cat").data, isRegexMetachar ch = false) ∧
    (( "cat").data.head?).all isWordChar = true ∧
    (( "cat").data.getLast?).all isWordChar = true ∧
    jsInSpecialEncodings "cat" = false ∧
    (scanMatches "cat"
        [ ⟨ .str "1", "category" ⟩, ⟨ .str "2", "the cat sat" ⟩, ⟨ .str "3", "cat" ⟩ ] =
      (([ ⟨ .str "1", "category" ⟩, ⟨ .str "2", "the cat sat" ⟩, ⟨ .str "3", "cat" ⟩ ] :
          List GlossEntry).filter (fun e => "cat" == e.description ||
        specWholeWord ( "cat").data e.description.data)).map entryToMatch ∧
      specWholeWord ( "cat").data ( "category").data = false ∧
      specWholeWord ( "cat").data ( "the cat sat").data = true) :=
  ⟨ by decide, by decide, by decide, by decide, by decide,
    wholeWordScanCharacterization
      [ ⟨ .str "1", "category" ⟩, ⟨ .str "2", "the cat sat" ⟩, ⟨ .str "3", "cat" ⟩ ]
      "cat" (by decide) (by decide) (by decide) (by decide) (by decide) ⟩
